import Mathlib

/-!
Shallow embedding of `src/main.cpp` (Sreeram23/To-Do-List): an in-memory
to-do list manager with a memento-style undo/redo history.

Stacks (`std::stack<TaskMemento>`) are modelled as Lean lists whose head is
the stack top.  The C++ `int` index parameters are modelled as `Int`; the
in-bounds guard `index >= 0 && index < tasks.size()` appears verbatim in
each operation, so no overflow is relevant.  Console output of `undo`/`redo`
is modelled as the `String` component of the returned pair.
-/

namespace ToDoList

/-- `TaskMemento` from `src/main.cpp` lines 8-21: an immutable capture of a
task's description, completion flag and due date. -/
structure TaskMemento where
  description : String
  isCompleted : Bool
  dueDate : String
deriving DecidableEq

/-- `Task` from `src/main.cpp` lines 23-98. -/
structure Task where
  description : String
  completed : Bool
  dueDate : String
  tags : List String
deriving DecidableEq, Inhabited

namespace Task

/-- `Task::Builder` (lines 25-50): builder requiring a description;
`completed` always initialises to `false`. -/
structure Builder where
  description : String
  completed : Bool
  dueDate : String
  tags : List String
deriving DecidableEq

/-- `Builder(const string& desc)` constructor (line 27). -/
def Builder.ofDescription (desc : String) : Builder :=
  ⟨desc, false, "", []⟩

/-- `Builder::setDueDate` (lines 29-32). -/
def Builder.setDueDate (b : Builder) (date : String) : Builder :=
  { b with dueDate := date }

/-- `Builder::setTags` (lines 34-37). -/
def Builder.setTags (b : Builder) (taskTags : List String) : Builder :=
  { b with tags := taskTags }

/-- `Builder::build` (lines 39-41). -/
def Builder.build (b : Builder) : Task :=
  ⟨b.description, b.completed, b.dueDate, b.tags⟩

/-- `Task::markCompleted` (lines 52-56): sets the flag when it is unset. -/
def markCompleted (t : Task) : Task :=
  if t.completed = false then { t with completed := true } else t

/-- `Task::markPending` (lines 58-62): clears the flag when it is set. -/
def markPending (t : Task) : Task :=
  if t.completed = true then { t with completed := false } else t

/-- `Task::isCompleted` (lines 64-66). -/
def isCompleted (t : Task) : Bool :=
  t.completed

/-- `Task::save` (lines 80-82): capture a memento of the three fields. -/
def save (t : Task) : TaskMemento :=
  ⟨t.description, t.completed, t.dueDate⟩

/-- `Task::restore` (lines 84-88): overwrite description, flag and due date
from the memento; `tags` is untouched. -/
def restore (t : Task) (memento : TaskMemento) : Task :=
  { t with description := memento.description,
           completed := memento.isCompleted,
           dueDate := memento.dueDate }

end Task

/-- `TaskHistory` (lines 100-132): two stacks of mementos.  List head is the
stack top. -/
structure TaskHistory where
  history : List TaskMemento
  redoStack : List TaskMemento
deriving DecidableEq

namespace TaskHistory

/-- `TaskHistory::addMemento` (lines 102-105): push onto `history` and clear
`redoStack` entirely. -/
def addMemento (h : TaskHistory) (memento : TaskMemento) : TaskHistory :=
  ⟨memento :: h.history, []⟩

/-- `TaskHistory::getMemento` (lines 107-112): pop the top of `history`,
push it onto `redoStack`, and return it.  The C++ code calls `top()` on a
possibly empty stack only behind the caller's `isEmpty` guard; the empty
case is modelled as `none`. -/
def getMemento (h : TaskHistory) : Option (TaskMemento × TaskHistory) :=
  match h.history with
  | [] => none
  | memento :: rest => some (memento, ⟨rest, memento :: h.redoStack⟩)

/-- `TaskHistory::isEmpty` (lines 114-116). -/
def isEmpty (h : TaskHistory) : Bool :=
  h.history.isEmpty

/-- `TaskHistory::isRedoStackEmpty` (lines 118-120). -/
def isRedoStackEmpty (h : TaskHistory) : Bool :=
  h.redoStack.isEmpty

/-- `TaskHistory::redo` (lines 122-127): pop the top of `redoStack`, push it
onto `history`, and return it; `none` models the unguarded-empty case. -/
def redo (h : TaskHistory) : Option (TaskMemento × TaskHistory) :=
  match h.redoStack with
  | [] => none
  | memento :: rest => some (memento, ⟨memento :: h.history, rest⟩)

end TaskHistory

/-- The for-loop of `ToDoListManager::undo`/`redo` (lines 178-183, 194-199):
restore the memento into the first task whose description equals the
memento's description, then `break`; later tasks are untouched. -/
def restoreFirst : List Task → TaskMemento → List Task
  | [], _ => []
  | t :: ts, memento =>
    if t.description = memento.description then t.restore memento :: ts
    else t :: restoreFirst ts memento

/-- `ToDoListManager` (lines 134-210): the ordered task collection and the
two `TaskHistory` members `history` and `redoStack` (lines 206-209). -/
structure ToDoListManager where
  tasks : List Task
  history : TaskHistory
  redoStack : TaskHistory
deriving DecidableEq

namespace ToDoListManager

/-- The manager a fresh `ToDoListManager manager;` declaration yields
(line 213): no tasks, all four stacks empty. -/
def init : ToDoListManager :=
  ⟨[], ⟨[], []⟩, ⟨[], []⟩⟩

/-- `ToDoListManager::addTask` (lines 136-139): append the task and record a
memento of its state at insertion. -/
def addTask (mg : ToDoListManager) (task : Task) : ToDoListManager :=
  { mg with tasks := mg.tasks ++ [task],
            history := mg.history.addMemento task.save }

/-- `ToDoListManager::markTaskCompleted` (lines 141-146): guarded by
`index >= 0 && index < tasks.size() && !tasks[index].isCompleted()`;
records the pre-mutation memento, then marks the task completed. -/
def markTaskCompleted (mg : ToDoListManager) (index : Int) : ToDoListManager :=
  if 0 ≤ index ∧ index < (mg.tasks.length : Int) ∧
      (mg.tasks.getD index.toNat default).isCompleted = false then
    { mg with
      history := mg.history.addMemento (mg.tasks.getD index.toNat default).save,
      tasks := mg.tasks.set index.toNat
        (mg.tasks.getD index.toNat default).markCompleted }
  else mg

/-- `ToDoListManager::markTaskPending` (lines 148-153): symmetric guard
`... && tasks[index].isCompleted()`. -/
def markTaskPending (mg : ToDoListManager) (index : Int) : ToDoListManager :=
  if 0 ≤ index ∧ index < (mg.tasks.length : Int) ∧
      (mg.tasks.getD index.toNat default).isCompleted = true then
    { mg with
      history := mg.history.addMemento (mg.tasks.getD index.toNat default).save,
      tasks := mg.tasks.set index.toNat
        (mg.tasks.getD index.toNat default).markPending }
  else mg

/-- `ToDoListManager::deleteTask` (lines 155-160): on a valid index, record
the pre-deletion memento and erase the task, shifting later ones down. -/
def deleteTask (mg : ToDoListManager) (index : Int) : ToDoListManager :=
  if 0 ≤ index ∧ index < (mg.tasks.length : Int) then
    { mg with
      history := mg.history.addMemento (mg.tasks.getD index.toNat default).save,
      tasks := mg.tasks.eraseIdx index.toNat }
  else mg

/-- `ToDoListManager::undo` (lines 174-188).  The C++ guard
`!history.isEmpty()` corresponds exactly to `getMemento` returning `some`:
pop the memento (which also pushes it onto `history`'s internal redo stack),
push it into the second `TaskHistory` via `addMemento`, and restore the
first description-matching task.  The returned string is the console
message. -/
def undo (mg : ToDoListManager) : ToDoListManager × String :=
  match mg.history.getMemento with
  | none => (mg, "Nothing to undo.")
  | some (memento, h) =>
      (⟨restoreFirst mg.tasks memento, h, mg.redoStack.addMemento memento⟩,
       "Undo successful.")

/-- `ToDoListManager::redo` (lines 190-204).  The guard
`!redoStack.isRedoStackEmpty()` corresponds to `TaskHistory.redo` returning
`some`: pop from the second `TaskHistory`'s redo stack, re-record into
`history`, and restore the first description-matching task. -/
def redo (mg : ToDoListManager) : ToDoListManager × String :=
  match mg.redoStack.redo with
  | none => (mg, "Nothing to redo.")
  | some (memento, r) =>
      (⟨restoreFirst mg.tasks memento, mg.history.addMemento memento, r⟩,
       "Redo successful.")

end ToDoListManager

/-- One parsed menu command forwarded to the core (`main`, lines 231-304);
the view choices do not mutate the manager and are omitted. -/
inductive Op where
  | addTask (task : Task)
  | markTaskCompleted (index : Int)
  | markTaskPending (index : Int)
  | deleteTask (index : Int)
  | undo
  | redo
deriving DecidableEq

namespace ToDoListManager

/-- Apply one command to the manager, discarding console output. -/
def apply (mg : ToDoListManager) : Op → ToDoListManager
  | .addTask task => mg.addTask task
  | .markTaskCompleted index => mg.markTaskCompleted index
  | .markTaskPending index => mg.markTaskPending index
  | .deleteTask index => mg.deleteTask index
  | .undo => mg.undo.1
  | .redo => mg.redo.1

/-- Run a sequence of commands left to right. -/
def run (mg : ToDoListManager) : List Op → ToDoListManager
  | [] => mg
  | op :: ops => (mg.apply op).run ops

/-- Total number of mementos held across all four stacks of the manager. -/
def totalSnapshots (mg : ToDoListManager) : Nat :=
  mg.history.history.length + mg.history.redoStack.length +
    mg.redoStack.history.length + mg.redoStack.redoStack.length

end ToDoListManager

/-- A manager state the interactive loop can produce from a fresh manager. -/
def Reachable (mg : ToDoListManager) : Prop :=
  ∃ ops : List Op, ToDoListManager.init.run ops = mg

/-! ### Helper lemmas -/

lemma Task.markCompleted_markPending (t : Task) (h : t.completed = false) :
    t.markCompleted.markPending = t := by
  obtain ⟨d, c, dd, tg⟩ := t
  cases h
  rfl

lemma restoreFirst_map_description (ts : List Task) (m : TaskMemento) :
    (restoreFirst ts m).map Task.description = ts.map Task.description := by
  induction ts with
  | nil => rfl
  | cons t ts ih =>
    by_cases h : t.description = m.description
    · rw [restoreFirst, if_pos h]
      simp [Task.restore, h]
    · simp [restoreFirst, h, ih]

lemma restoreFirst_of_no_match (ts : List Task) (m : TaskMemento)
    (h : ∀ t ∈ ts, t.description ≠ m.description) : restoreFirst ts m = ts := by
  induction ts with
  | nil => rfl
  | cons t ts ih =>
    rw [restoreFirst, if_neg (h t (List.mem_cons_self t ts)),
      ih fun u hu => h u (List.mem_cons_of_mem t hu)]

lemma restoreFirst_eq_set (ts : List Task) (m : TaskMemento) (j : Nat) (tj : Task)
    (hj : ts[j]? = some tj) (hmatch : tj.description = m.description)
    (hbefore : ∀ k tk, k < j → ts[k]? = some tk → tk.description ≠ m.description) :
    restoreFirst ts m = ts.set j (tj.restore m) := by
  induction ts generalizing j with
  | nil => simp at hj
  | cons t ts ih =>
    cases j with
    | zero =>
      rw [List.getElem?_cons_zero, Option.some_inj] at hj
      subst hj
      rw [restoreFirst, if_pos hmatch, List.set_cons_zero]
    | succ j =>
      have hne : t.description ≠ m.description :=
        hbefore 0 t (Nat.succ_pos j) (List.getElem?_cons_zero)
      rw [List.getElem?_cons_succ] at hj
      rw [restoreFirst, if_neg hne, List.set_cons_succ,
        ih j hj fun k tk hk hget =>
          hbefore (k + 1) tk (Nat.succ_lt_succ hk)
            (by rw [List.getElem?_cons_succ]; exact hget)]

/-! ### Helper lemmas about the manager's second `TaskHistory` instance

The four mutating operations touch only the member `history`; `undo` calls
`addMemento` on the member `redoStack`, which clears that instance's inner
redo stack; `redo` pops from that inner redo stack.  Consequently the inner
redo stack of the member `redoStack` is empty in every reachable state. -/

lemma ToDoListManager.markTaskCompleted_redoStack (mg : ToDoListManager) (i : Int) :
    (mg.markTaskCompleted i).redoStack = mg.redoStack := by
  rw [ToDoListManager.markTaskCompleted]
  split <;> rfl

lemma ToDoListManager.markTaskPending_redoStack (mg : ToDoListManager) (i : Int) :
    (mg.markTaskPending i).redoStack = mg.redoStack := by
  rw [ToDoListManager.markTaskPending]
  split <;> rfl

lemma ToDoListManager.deleteTask_redoStack (mg : ToDoListManager) (i : Int) :
    (mg.deleteTask i).redoStack = mg.redoStack := by
  rw [ToDoListManager.deleteTask]
  split <;> rfl

lemma ToDoListManager.redo_noop_of_nil (mg : ToDoListManager)
    (h : mg.redoStack.redoStack = []) : mg.redo = (mg, "Nothing to redo.") := by
  rw [ToDoListManager.redo, TaskHistory.redo, h]

lemma ToDoListManager.apply_redo_nil (mg : ToDoListManager) (op : Op)
    (h : mg.redoStack.redoStack = []) : (mg.apply op).redoStack.redoStack = [] := by
  cases op with
  | addTask t => exact h
  | markTaskCompleted i =>
    rw [ToDoListManager.apply, ToDoListManager.markTaskCompleted_redoStack]; exact h
  | markTaskPending i =>
    rw [ToDoListManager.apply, ToDoListManager.markTaskPending_redoStack]; exact h
  | deleteTask i =>
    rw [ToDoListManager.apply, ToDoListManager.deleteTask_redoStack]; exact h
  | undo =>
    rw [ToDoListManager.apply, ToDoListManager.undo]
    cases hg : mg.history.getMemento with
    | none => exact h
    | some p => rfl
  | redo =>
    rw [ToDoListManager.apply, ToDoListManager.redo_noop_of_nil mg h]
    exact h

lemma ToDoListManager.run_redo_nil (ops : List Op) (mg : ToDoListManager)
    (h : mg.redoStack.redoStack = []) : (mg.run ops).redoStack.redoStack = [] := by
  induction ops generalizing mg with
  | nil => exact h
  | cons op ops ih => exact ih (mg.apply op) (ToDoListManager.apply_redo_nil mg op h)

lemma reachable_redo_nil (mg : ToDoListManager) (h : Reachable mg) :
    mg.redoStack.redoStack = [] := by
  obtain ⟨ops, rfl⟩ := h
  exact ToDoListManager.run_redo_nil ops ToDoListManager.init rfl

/-- The four operations the menu offers that record a memento on success. -/
def Op.isMutation : Op → Prop
  | .addTask _ => True
  | .markTaskCompleted _ => True
  | .markTaskPending _ => True
  | .deleteTask _ => True
  | .undo => False
  | .redo => False

/-- A concrete task, built the way the menu's add-task branch builds one. -/
def sampleTask : Task :=
  ((Task.Builder.ofDescription "Buy milk").setDueDate "").build

/-- The manager after the interactive session: add "Buy milk", then mark
task 0 completed.  Its undo stack holds two mementos. -/
def afterComplete : ToDoListManager :=
  ToDoListManager.init.run [Op.addTask sampleTask, Op.markTaskCompleted 0]

/-- A manager holding two tasks, obtained by adding twice. -/
def twoTasks : ToDoListManager :=
  ToDoListManager.init.run
    [Op.addTask sampleTask,
     Op.addTask (((Task.Builder.ofDescription "Call Alice").setDueDate
       "2024-01-01").build)]

/-! ### Claim theorems -/

/-- Claim C3: in every manager state reachable through any sequence of
`addTask`, `markTaskCompleted`, `markTaskPending`, `deleteTask`, `undo` and
`redo` calls, the inner redo stack of the manager's second `TaskHistory`
member (the stack `redo()` consults) is empty, so `redo()` always takes its
"Nothing to redo" branch and leaves the task collection and both history
objects completely unchanged. -/
theorem redo_branch_always_nothing (mg : ToDoListManager) (h : Reachable mg) :
    mg.redoStack.redoStack = [] ∧ mg.redo = (mg, "Nothing to redo.") := by
  have hn := reachable_redo_nil mg h
  exact ⟨hn, ToDoListManager.redo_noop_of_nil mg hn⟩

/-- Witness for C3: the theorem applied to the freshly constructed manager,
which is reachable via the empty command sequence. -/
theorem redo_branch_always_nothing_witness :
    ToDoListManager.init.redoStack.redoStack = [] ∧
      ToDoListManager.init.redo = (ToDoListManager.init, "Nothing to redo.") :=
  redo_branch_always_nothing ToDoListManager.init ⟨[], rfl⟩

/-- Claim C4: recording a memento clears the redo trail: after any
`addTask`, `markTaskCompleted`, `markTaskPending` or `deleteTask` that
records a memento (the undo stack grew by one), an immediately subsequent
`redo()` reports "Nothing to redo" and changes no state. -/
theorem record_then_redo_nothing (mg : ToDoListManager) (op : Op) (h : Reachable mg)
    (hmut : op.isMutation)
    (hrec : (mg.apply op).history.history.length = mg.history.history.length + 1) :
    (mg.apply op).redo = (mg.apply op, "Nothing to redo.") :=
  ToDoListManager.redo_noop_of_nil (mg.apply op)
    (ToDoListManager.apply_redo_nil mg op (reachable_redo_nil mg h))

/-- Witness for C4: adding a task to the fresh manager records a memento,
and the subsequent `redo()` reports "Nothing to redo". -/
theorem record_then_redo_nothing_witness :
    (ToDoListManager.init.apply (Op.addTask sampleTask)).redo
      = (ToDoListManager.init.apply (Op.addTask sampleTask), "Nothing to redo.") :=
  record_then_redo_nothing ToDoListManager.init (Op.addTask sampleTask)
    ⟨[], rfl⟩ trivial (by decide)

/-- Claim C8: for every index outside `[0, number of tasks)`,
`markTaskCompleted`, `markTaskPending` and `deleteTask` leave the whole
manager — task collection and both history members — unchanged. -/
theorem invalid_index_ops_noop (mg : ToDoListManager) (i : Int)
    (h : ¬ (0 ≤ i ∧ i < (mg.tasks.length : Int))) :
    mg.markTaskCompleted i = mg ∧ mg.markTaskPending i = mg ∧ mg.deleteTask i = mg := by
  refine ⟨?_, ?_, ?_⟩
  · rw [ToDoListManager.markTaskCompleted, if_neg fun hc => h ⟨hc.1, hc.2.1⟩]
  · rw [ToDoListManager.markTaskPending, if_neg fun hc => h ⟨hc.1, hc.2.1⟩]
  · rw [ToDoListManager.deleteTask, if_neg h]

/-- Witness for C8: index 99 on the two-task manager obtained by adding
twice; all three operations are no-ops. -/
theorem invalid_index_ops_noop_witness :
    twoTasks.markTaskCompleted 99 = twoTasks ∧
      twoTasks.markTaskPending 99 = twoTasks ∧ twoTasks.deleteTask 99 = twoTasks :=
  invalid_index_ops_noop twoTasks 99 (by decide)

/-- Claim C9: when the undo stack holds no recorded memento, `undo()`
reports "Nothing to undo." and changes nothing: the returned manager is
exactly the input manager. -/
theorem undo_empty_history_noop (mg : ToDoListManager)
    (h : mg.history.history = []) : mg.undo = (mg, "Nothing to undo.") := by
  rw [ToDoListManager.undo, TaskHistory.getMemento, h]

/-- Witness for C9: the fresh manager has an empty undo stack. -/
theorem undo_empty_history_noop_witness :
    ToDoListManager.init.undo = (ToDoListManager.init, "Nothing to undo.") :=
  undo_empty_history_noop ToDoListManager.init rfl

/-- Claim C10: `undo()` never changes any task's description: in every
reachable state, after `undo()` the list of descriptions is exactly what it
was before the call (the restore target is selected only among tasks whose
description already equals the memento's). -/
theorem undo_preserves_descriptions (mg : ToDoListManager) (h : Reachable mg) :
    (mg.undo.1).tasks.map Task.description = mg.tasks.map Task.description := by
  rw [ToDoListManager.undo]
  cases hg : mg.history.getMemento with
  | none => rfl
  | some p => exact restoreFirst_map_description mg.tasks p.1

/-- Witness for C10: undo on the reachable two-memento state
`afterComplete` keeps the single description "Buy milk". -/
theorem undo_preserves_descriptions_witness :
    (afterComplete.undo.1).tasks.map Task.description
      = afterComplete.tasks.map Task.description :=
  undo_preserves_descriptions afterComplete
    ⟨[Op.addTask sampleTask, Op.markTaskCompleted 0], rfl⟩

/-- Claim C6: on a non-empty undo stack, `undo()` reports success, pops the
most recent memento (the undo stack becomes its tail), pushes it onto both
redo-side stores (the first history's inner redo stack and the second
history's undo stack), and restores description, flag and due date of
exactly the first task whose description equals the memento's — the task
list becomes `set j (tj.restore m)`, every other task unchanged — while if
no task matches, the task list is unchanged and the memento is still
consumed. -/
theorem undo_pops_and_restores_first_match (mg : ToDoListManager)
    (m : TaskMemento) (rest : List TaskMemento)
    (h : mg.history.history = m :: rest) :
    mg.undo.2 = "Undo successful." ∧
    (mg.undo.1).history.history = rest ∧
    (mg.undo.1).history.redoStack = m :: mg.history.redoStack ∧
    (mg.undo.1).redoStack.history = m :: mg.redoStack.history ∧
    (∀ j tj, mg.tasks[j]? = some tj → tj.description = m.description →
      (∀ k tk, k < j → mg.tasks[k]? = some tk → tk.description ≠ m.description) →
      (mg.undo.1).tasks = mg.tasks.set j (tj.restore m)) ∧
    ((∀ t ∈ mg.tasks, t.description ≠ m.description) → (mg.undo.1).tasks = mg.tasks) := by
  obtain ⟨tasks, ⟨hh, hr⟩, rs⟩ := mg
  cases h
  refine ⟨rfl, rfl, rfl, rfl, ?_, ?_⟩
  · exact fun j tj hj hmatch hbefore => restoreFirst_eq_set tasks m j tj hj hmatch hbefore
  · exact fun hnone => restoreFirst_of_no_match tasks m hnone

/-- Witness for C6: undo on the reachable state `afterComplete`, whose undo
stack top is the pre-completion memento of "Buy milk". -/
theorem undo_pops_and_restores_first_match_witness :
    afterComplete.history.history
        = ⟨"Buy milk", false, ""⟩ :: [⟨"Buy milk", false, ""⟩] ∧
      (afterComplete.undo.2 = "Undo successful." ∧
       (afterComplete.undo.1).history.history = [⟨"Buy milk", false, ""⟩] ∧
       (afterComplete.undo.1).history.redoStack
          = ⟨"Buy milk", false, ""⟩ :: afterComplete.history.redoStack ∧
       (afterComplete.undo.1).redoStack.history
          = ⟨"Buy milk", false, ""⟩ :: afterComplete.redoStack.history ∧
       (∀ j tj, afterComplete.tasks[j]? = some tj →
          tj.description = TaskMemento.description ⟨"Buy milk", false, ""⟩ →
          (∀ k tk, k < j → afterComplete.tasks[k]? = some tk →
            tk.description ≠ TaskMemento.description ⟨"Buy milk", false, ""⟩) →
          (afterComplete.undo.1).tasks
            = afterComplete.tasks.set j (tj.restore ⟨"Buy milk", false, ""⟩)) ∧
       ((∀ t ∈ afterComplete.tasks,
          t.description ≠ TaskMemento.description ⟨"Buy milk", false, ""⟩) →
          (afterComplete.undo.1).tasks = afterComplete.tasks)) :=
  ⟨by decide,
   undo_pops_and_restores_first_match afterComplete ⟨"Buy milk", false, ""⟩
     [⟨"Buy milk", false, ""⟩] (by decide)⟩

/-- A manager whose single task is already completed; the mark round trip
fails on it. -/
def completedSample : ToDoListManager :=
  ToDoListManager.init.run [Op.addTask sampleTask, Op.markTaskCompleted 0]

/-- Counterexample to claim C5 as stated: on a manager whose task 0 is
already completed, `markTaskCompleted 0` is a guarded no-op and
`markTaskPending 0` then clears the flag, so the round trip does not return
task 0 to its original completed flag. -/
theorem mark_roundtrip_fails_on_completed :
    (((completedSample.markTaskCompleted 0).markTaskPending 0).tasks.getD 0
        default).completed
      ≠ ((completedSample.tasks.getD 0 default)).completed := by decide

/-- Claim C5 (amended): for every valid index `i` whose task is not already
completed, `markTaskCompleted i` then `markTaskPending i` returns task `i`
to exactly its original state — in particular its original completed flag
and original due date. -/
theorem mark_roundtrip_restores_pending_task (mg : ToDoListManager) (i : Int)
    (h0 : 0 ≤ i) (h1 : i < (mg.tasks.length : Int))
    (hp : (mg.tasks.getD i.toNat default).completed = false) :
    ((mg.markTaskCompleted i).markTaskPending i).tasks[i.toNat]?
      = mg.tasks[i.toNat]? := by
  have hlt : i.toNat < mg.tasks.length := by omega
  have hget : mg.tasks.getD i.toNat default = mg.tasks[i.toNat] := by
    rw [List.getD_eq_getElem?_getD, List.getElem?_eq_getElem hlt, Option.getD_some]
  rw [ToDoListManager.markTaskCompleted,
    if_pos ⟨h0, h1, by rw [Task.isCompleted]; exact hp⟩]
  rw [ToDoListManager.markTaskPending]
  rw [if_pos]
  · simp only [List.set_set, List.length_set]
    rw [List.getElem?_set_self (by simpa using hlt), List.getElem?_eq_getElem hlt]
    congr 1
    rw [hget, List.getD_eq_getElem?_getD, List.getElem?_set_self hlt, Option.getD_some]
    exact Task.markCompleted_markPending mg.tasks[i.toNat] (by rw [← hget]; exact hp)
  · refine ⟨h0, by simpa using h1, ?_⟩
    rw [List.getD_eq_getElem?_getD,
      List.getElem?_set_self (by simpa using hlt), Option.getD_some,
      Task.isCompleted, hget, Task.markCompleted, if_pos (by rw [← hget]; exact hp)]

/-- Witness for C5 (amended): the round trip on the pending task 0 of the
two-task manager returns it unchanged. -/
theorem mark_roundtrip_restores_pending_task_witness :
    ((twoTasks.markTaskCompleted 0).markTaskPending 0).tasks[(0 : Int).toNat]?
      = twoTasks.tasks[(0 : Int).toNat]? :=
  mark_roundtrip_restores_pending_task twoTasks 0 (by decide) (by decide) (by decide)

/-- Claim C1 fails on the code: in the reachable state `afterComplete`
(recorded depth 2, task "Buy milk" completed), one `undo()` followed by one
`redo()` does not return the task collection to its pre-undo state — the
redo is a dead branch, so the task stays pending. -/
theorem undo_then_redo_not_inverse :
    2 ≤ afterComplete.history.history.length ∧
      ((afterComplete.apply Op.undo).apply Op.redo).tasks ≠ afterComplete.tasks := by
  exact ⟨by decide, by decide⟩

/-- Claim C2 fails on the code: after an `undo()` that consumed a memento
from the reachable state `afterComplete` (the undo stack shrank from 2 to
1), `redo()` still reports "Nothing to redo." and changes nothing, instead
of taking the restoring branch — `undo` records into the second
`TaskHistory`'s undo stack, never into the redo stack that `redo()`
consults. -/
theorem redo_after_undo_reports_nothing :
    (afterComplete.apply Op.undo).history.history.length + 1
        = afterComplete.history.history.length ∧
      (afterComplete.apply Op.undo).redo
        = (afterComplete.apply Op.undo, "Nothing to redo.") := by
  exact ⟨by decide, by decide⟩

/-- Claim C7 fails on the code: `undo()` does not conserve the total
memento count.  From the reachable state `afterComplete` holding 2 mementos
in total, one `undo()` leaves 3: the popped memento is pushed onto both the
first history's inner redo stack and the second history's undo stack, a
duplication. -/
theorem undo_duplicates_memento :
    afterComplete.totalSnapshots = 2 ∧
      (afterComplete.apply Op.undo).totalSnapshots = 3 := by
  exact ⟨by decide, by decide⟩

end ToDoList
